import Mathlib

/-!
A verification development for the ct-dev governance control plane.

The definitions below are a shallow embedding of the Python sources:

* orchestrator/orchestrator.py — calibration engine (get_penalty /
  update_penalty), the send_intent submission gate, phased plan
  execution (check_phase_dependencies / execute_plan_with_phases),
  policy pruning (prune_plans_by_policy), ranking (rank_plans) and the
  /internal/resume signal handler.
* gateway_auth.py and gateway/gateway_auth.py — the two copies of the
  deny-by-default security layer (API key check, sliding-window rate
  limiter, request size limits, permission allow list).

Conventions: Python floats are modelled as rationals, Python dicts with
optional keys as structures of Option fields (dict.get with a default
becomes Option.getD), dict lookup tables as association lists, and the
network side effects of a function as explicit result records listing
the emitted events.  Python truthiness is made explicit wherever the
source branches on it.
-/

namespace CtDev

/-! ## Calibration engine (orchestrator.py, get_penalty / update_penalty)

CALIBRATION is a dict keyed by the pair (intent_type, mode); both parts
come from dict.get calls and may be None, so keys are pairs of options. -/

/-- Python max on two numbers (returns the first argument on ties). -/
def pymax (a b : ℚ) : ℚ := if b ≤ a then a else b

/-- Python min on two numbers (returns the first argument on ties). -/
def pymin (a b : ℚ) : ℚ := if a ≤ b then a else b

theorem pymax_eq_max (a b : ℚ) : pymax a b = max a b := by
  unfold pymax
  rcases le_total a b with h | h
  · rcases eq_or_lt_of_le h with rfl | hlt
    · simp
    · rw [if_neg (not_le.mpr hlt), max_eq_right h]
  · rw [if_pos h, max_eq_left h]

theorem pymin_eq_min (a b : ℚ) : pymin a b = min a b := by
  unfold pymin
  rcases le_total a b with h | h
  · rw [if_pos h, min_eq_left h]
  · rcases eq_or_lt_of_le h with rfl | hlt
    · simp
    · rw [if_neg (not_le.mpr hlt), min_eq_right h]

abbrev CalKey := Option String × Option String

/-- The CALIBRATION dict: an association list from (intent_type, mode)
keys to penalty multipliers. -/
abbrev Calibration := List (CalKey × ℚ)

/-- Dict lookup: first binding for the key, if any. -/
def calLookup (cal : Calibration) (key : CalKey) : Option ℚ :=
  (cal.find? (fun kv => kv.1 = key)).map (fun kv => kv.2)

/-- Dict assignment CALIBRATION[key] = v: replace the first binding for
the key, or append a fresh binding. -/
def calInsert (cal : Calibration) (key : CalKey) (v : ℚ) : Calibration :=
  match cal with
  | [] => [(key, v)]
  | kv :: rest =>
    if kv.1 = key then (key, v) :: rest else kv :: calInsert rest key v

/-- get_penalty: CALIBRATION.get((intent_type, mode), 1.0). -/
def get_penalty (cal : Calibration) (intent_type mode : Option String) : ℚ :=
  (calLookup cal (intent_type, mode)).getD 1

/-- update_penalty: decay multiplies by 0.85 with floor 0.30, recovery
adds 0.05 with ceiling 1.0, reset returns to 1.0; the (possibly
unchanged) value is written back into the dict.  Decimal constants are
written with mkRat, so mkRat 85 100 is the source constant 0.85. -/
def update_penalty (cal : Calibration) (intent_type mode : Option String)
    (outcome : String) : Calibration :=
  let key : CalKey := (intent_type, mode)
  let penalty := (calLookup cal key).getD 1
  let penalty :=
    if outcome = "decay" then pymax (penalty * mkRat 85 100) (mkRat 30 100)
    else if outcome = "recovery" then pymin (penalty + mkRat 5 100) 1
    else if outcome = "reset" then 1
    else penalty
  calInsert cal key penalty

theorem calLookup_calInsert_self (cal : Calibration) (key : CalKey) (v : ℚ) :
    calLookup (calInsert cal key v) key = some v := by
  induction cal with
  | nil => simp [calInsert, calLookup]
  | cons kv rest ih =>
    by_cases h : kv.1 = key
    · simp [calInsert, h, calLookup, List.find?]
    · simpa [calInsert, h, calLookup, List.find?] using ih

theorem get_penalty_update (cal : Calibration) (it mode : Option String)
    (outcome : String) :
    get_penalty (update_penalty cal it mode outcome) it mode =
      (let penalty := (calLookup cal (it, mode)).getD 1
       if outcome = "decay" then pymax (penalty * mkRat 85 100) (mkRat 30 100)
       else if outcome = "recovery" then pymin (penalty + mkRat 5 100) 1
       else if outcome = "reset" then 1
       else penalty) := by
  simp only [get_penalty, update_penalty, calLookup_calInsert_self, Option.getD_some]

theorem calLookup_update_self (cal : Calibration) (it mode : Option String)
    (outcome : String) :
    calLookup (update_penalty cal it mode outcome) (it, mode) =
      some (get_penalty (update_penalty cal it mode outcome) it mode) := by
  simp [update_penalty, get_penalty, calLookup_calInsert_self]

/-- C4: starting from a fresh (intent_type, mode) pair, three decay
updates bring the multiplier to max(1.0 times 0.85 cubed, 0.30), and one
subsequent reset update returns it to exactly 1.0. -/
theorem calibration_decay3_reset (cal : Calibration) (it mode : Option String)
    (hfresh : calLookup cal (it, mode) = none) :
    let c1 := update_penalty cal it mode "decay"
    let c2 := update_penalty c1 it mode "decay"
    let c3 := update_penalty c2 it mode "decay"
    get_penalty c3 it mode = max (1 * 0.85 ^ 3) 0.30 ∧
    get_penalty (update_penalty c3 it mode "reset") it mode = 1 := by
  intro c1 c2 c3
  have h1 : get_penalty c1 it mode = pymax (1 * mkRat 85 100) (mkRat 30 100) := by
    simp [c1, get_penalty_update, hfresh]
  have l1 : calLookup c1 (it, mode) = some (pymax (1 * mkRat 85 100) (mkRat 30 100)) := by
    have h := calLookup_update_self cal it mode "decay"
    rw [h1] at h
    exact h
  have h2 : get_penalty c2 it mode =
      pymax (pymax (1 * mkRat 85 100) (mkRat 30 100) * mkRat 85 100) (mkRat 30 100) := by
    simp [c2, get_penalty_update, l1]
  have l2 : calLookup c2 (it, mode) =
      some (pymax (pymax (1 * mkRat 85 100) (mkRat 30 100) * mkRat 85 100)
        (mkRat 30 100)) := by
    have h := calLookup_update_self c1 it mode "decay"
    rw [h2] at h
    exact h
  have h3 : get_penalty c3 it mode =
      pymax (pymax (pymax (1 * mkRat 85 100) (mkRat 30 100) * mkRat 85 100)
        (mkRat 30 100) * mkRat 85 100) (mkRat 30 100) := by
    simp [c3, get_penalty_update, l2]
  have l3 : calLookup c3 (it, mode) =
      some (pymax (pymax (pymax (1 * mkRat 85 100) (mkRat 30 100) * mkRat 85 100)
        (mkRat 30 100) * mkRat 85 100) (mkRat 30 100)) := by
    have h := calLookup_update_self c2 it mode "decay"
    rw [h3] at h
    exact h
  constructor
  · rw [h3, pymax_eq_max, pymax_eq_max, pymax_eq_max]
    norm_num [Rat.mkRat_eq_divInt]
  · simp [get_penalty_update, l3]

/-- Witness for C4 at the empty calibration dict and a concrete pair. -/
theorem calibration_decay3_reset_witness :
    calLookup ([] : Calibration) (some "apply_patch", some "simulate") = none ∧
    (let c1 := update_penalty [] (some "apply_patch") (some "simulate") "decay"
     let c2 := update_penalty c1 (some "apply_patch") (some "simulate") "decay"
     let c3 := update_penalty c2 (some "apply_patch") (some "simulate") "decay"
     get_penalty c3 (some "apply_patch") (some "simulate") = max (1 * 0.85 ^ 3) 0.30 ∧
     get_penalty (update_penalty c3 (some "apply_patch") (some "simulate") "reset")
       (some "apply_patch") (some "simulate") = 1) :=
  ⟨rfl, calibration_decay3_reset [] (some "apply_patch") (some "simulate") rfl⟩

/-! ## The send_intent submission gate (orchestrator.py) -/

/-- An intent dict as read by send_intent: every field is fetched by
dict.get and may be absent. -/
structure Intent where
  intent : Option String
  mode : Option String
  confidence : Option ℚ
  target : Option String
  deriving Repr, DecidableEq

/-- The mandated plan step passed to send_intent (None or a dict whose
action field is fetched by dict.get). -/
structure MandatedStep where
  action : Option String
  target : Option String
  deriving Repr, DecidableEq

/-- An observer event as emitted by send_intent and emit_plan_draft:
only its type and (for gate rejections) reason fields matter here. -/
structure Event where
  type : String
  reason : Option String
  deriving Repr, DecidableEq

/-- Result of a send_intent call: events emitted, final HALTED flag,
whether execute_tool was invoked, and LAST_REJECTED_INTENT afterwards. -/
structure SendIntentResult where
  events : List Event
  halted : Bool
  executed : Bool
  lastRejected : Option Intent
  deriving Repr, DecidableEq

/-- Calibration injection at the top of send_intent: only when the
(intent, mode) key is present in CALIBRATION is the confidence field
overwritten with raw_confidence times the penalty. -/
def calibrate (cal : Calibration) (i : Intent) : Intent :=
  match calLookup cal (i.intent, i.mode) with
  | some penalty => { i with confidence := some ((i.confidence.getD 0) * penalty) }
  | none => i

/-- The Python test "not mandated or mandated.get(action) != apply_patch",
negated: a mandated step is present and its action is apply_patch. -/
def mandated_matches (mandated : Option MandatedStep) : Bool :=
  match mandated with
  | some m => m.action = some "apply_patch"
  | none => false

/-- send_intent.  The external tool gate (the POST to TOOL_URL) is
modelled by toolStatus: some code for an HTTP response, none for a
transport exception.  halted0 and lastRejected0 are the values of the
HALTED and LAST_REJECTED_INTENT globals before the call. -/
def send_intent (cal : Calibration) (toolStatus : Option Nat) (i0 : Intent)
    (mandated : Option MandatedStep) (lastRejected0 : Option Intent)
    (halted0 : Bool) : SendIntentResult :=
  let i := calibrate cal i0
  if i.mode = some "propose" then
    { events := [⟨"plan_draft", none⟩], halted := true,
      executed := false, lastRejected := none }
  else if i.intent = some "apply_patch" ∧ i.confidence.getD 0 < mkRat 80 100 then
    { events := [⟨"gate_rejection", some "confidence_too_low"⟩],
      halted := halted0, executed := false, lastRejected := lastRejected0 }
  else if i.intent = some "apply_patch" ∧ mandated_matches mandated = false then
    { events := [⟨"gate_rejection", some "action_mismatch_with_plan"⟩],
      halted := halted0, executed := false, lastRejected := lastRejected0 }
  else
    match toolStatus with
    | some 200 =>
      { events := [], halted := halted0, executed := true, lastRejected := none }
    | some 422 =>
      { events := [⟨"gate_rejection", none⟩], halted := halted0,
        executed := false, lastRejected := some i }
    | _ =>
      { events := [], halted := halted0, executed := false,
        lastRejected := lastRejected0 }

/-- The calibrated confidence of an intent: raw confidence (default 0)
times the calibration penalty (default 1 for unseen pairs). -/
def calibrated_confidence (cal : Calibration) (i : Intent) : ℚ :=
  (i.confidence.getD 0) * get_penalty cal i.intent i.mode

theorem calibrate_confidence_getD (cal : Calibration) (i : Intent) :
    ((calibrate cal i).confidence).getD 0 = calibrated_confidence cal i := by
  unfold calibrate calibrated_confidence get_penalty
  cases h : calLookup cal (i.intent, i.mode) with
  | none => simp [h]
  | some p => simp [h]

theorem calibrate_preserves_intent (cal : Calibration) (i : Intent) :
    (calibrate cal i).intent = i.intent ∧ (calibrate cal i).mode = i.mode := by
  unfold calibrate
  cases calLookup cal (i.intent, i.mode) <;> simp

/-- C2: an intent with mode propose never results in tool execution and
leaves the orchestrator halted. -/
theorem send_intent_propose_halts (cal : Calibration) (toolStatus : Option Nat)
    (i : Intent) (mandated : Option MandatedStep) (lr0 : Option Intent)
    (h0 : Bool) (hmode : i.mode = some "propose") :
    (send_intent cal toolStatus i mandated lr0 h0).executed = false ∧
    (send_intent cal toolStatus i mandated lr0 h0).halted = true := by
  have hm : (calibrate cal i).mode = some "propose" :=
    (calibrate_preserves_intent cal i).2.trans hmode
  unfold send_intent
  simp [hm]

/-- Witness for C2 at a concrete propose-mode intent. -/
theorem send_intent_propose_halts_witness :
    (⟨some "apply_patch", some "propose", some 0.95, some "main.py"⟩ : Intent).mode
        = some "propose" ∧
    (send_intent [] (some 200)
        ⟨some "apply_patch", some "propose", some 0.95, some "main.py"⟩
        none none false).executed = false ∧
    (send_intent [] (some 200)
        ⟨some "apply_patch", some "propose", some 0.95, some "main.py"⟩
        none none false).halted = true :=
  ⟨rfl, send_intent_propose_halts [] (some 200)
    ⟨some "apply_patch", some "propose", some 0.95, some "main.py"⟩
    none none false rfl⟩

/-- C1 counterexample: an apply_patch intent with mode propose and
calibrated confidence 0.5 (below 0.80, and with no mandated step) is
submitted, no tool execution occurs, and yet no gate_rejection event is
emitted — a plan_draft event is emitted instead.  This contradicts the
claim that every non-executing apply_patch submission produces a
gate_rejection event. -/
theorem send_intent_apply_patch_no_gate_rejection :
    let i : Intent := ⟨some "apply_patch", some "propose", some 0.5, some "main.py"⟩
    let r := send_intent [] (some 200) i none none false
    calibrated_confidence [] i < 0.8 ∧
    r.executed = false ∧
    r.events = [⟨"plan_draft", none⟩] ∧
    r.events.all (fun e => e.type ≠ "gate_rejection") = true := by
  refine ⟨by norm_num [calibrated_confidence, get_penalty, calLookup], rfl, rfl, rfl⟩

/-- C1 (amended): for apply_patch intents whose mode is not propose,
tool execution occurs only if the calibrated confidence is at least 0.80
and a mandated step with action apply_patch is present; otherwise a
gate_rejection event is emitted and no tool call occurs. -/
theorem send_intent_apply_patch_gate (cal : Calibration) (toolStatus : Option Nat)
    (i : Intent) (mandated : Option MandatedStep) (lr0 : Option Intent) (h0 : Bool)
    (hintent : i.intent = some "apply_patch") (hmode : i.mode ≠ some "propose") :
    ((send_intent cal toolStatus i mandated lr0 h0).executed = true →
      0.8 ≤ calibrated_confidence cal i ∧ mandated_matches mandated = true) ∧
    (¬ (0.8 ≤ calibrated_confidence cal i ∧ mandated_matches mandated = true) →
      (send_intent cal toolStatus i mandated lr0 h0).executed = false ∧
      (∃ reason, (send_intent cal toolStatus i mandated lr0 h0).events =
        [⟨"gate_rejection", some reason⟩])) := by
  have hm : (calibrate cal i).mode = some "propose" ↔ i.mode = some "propose" := by
    rw [(calibrate_preserves_intent cal i).2]
  have hi : (calibrate cal i).intent = some "apply_patch" :=
    (calibrate_preserves_intent cal i).1.trans hintent
  have hc : ((calibrate cal i).confidence).getD 0 = calibrated_confidence cal i :=
    calibrate_confidence_getD cal i
  have h08 : (mkRat 80 100 : ℚ) = 0.8 := by norm_num [Rat.mkRat_eq_divInt]
  unfold send_intent
  rw [if_neg (fun h => hmode (hm.mp h))]
  by_cases hlow : ((calibrate cal i).confidence).getD 0 < mkRat 80 100
  · rw [if_pos ⟨hi, hlow⟩]
    refine ⟨fun h => absurd h (by simp), fun _ => ⟨rfl, "confidence_too_low", rfl⟩⟩
  · rw [if_neg (fun h => hlow h.2)]
    by_cases hmand : mandated_matches mandated = true
    · have hok : 0.8 ≤ calibrated_confidence cal i ∧ mandated_matches mandated = true :=
        ⟨by rw [← h08, ← hc]; exact le_of_not_lt hlow, hmand⟩
      rw [if_neg (fun h => by rw [hmand] at h; exact absurd h.2 (by simp))]
      cases toolStatus with
      | none => exact ⟨fun _ => hok, fun hno => absurd hok hno⟩
      | some code =>
        refine ⟨fun _ => hok, fun hno => absurd hok hno⟩
    · have hmf : mandated_matches mandated = false := by
        cases h : mandated_matches mandated
        · rfl
        · exact absurd h hmand
      rw [if_pos ⟨hi, hmf⟩]
      refine ⟨fun h => absurd h (by simp), fun _ => ⟨rfl, "action_mismatch_with_plan", rfl⟩⟩

/-- Witness for the amended C1: a reason-only apply_patch intent with
confidence 0.3 and no mandated step is rejected with a gate_rejection
event and never executed. -/
theorem send_intent_apply_patch_gate_witness :
    (⟨some "apply_patch", some "reason-only", some 0.3, some "main.py"⟩ : Intent).intent
        = some "apply_patch" ∧
    (⟨some "apply_patch", some "reason-only", some 0.3, some "main.py"⟩ : Intent).mode
        ≠ some "propose" ∧
    ((send_intent [] (some 200)
        ⟨some "apply_patch", some "reason-only", some 0.3, some "main.py"⟩
        none none false).executed = false ∧
      ∃ reason, (send_intent [] (some 200)
        ⟨some "apply_patch", some "reason-only", some 0.3, some "main.py"⟩
        none none false).events = [⟨"gate_rejection", some reason⟩]) := by
  refine ⟨rfl, by decide, ?_⟩
  exact (send_intent_apply_patch_gate [] (some 200)
    ⟨some "apply_patch", some "reason-only", some 0.3, some "main.py"⟩
    none none false rfl (by decide)).2
    (fun h => by
      have := h.1
      norm_num [calibrated_confidence, get_penalty, calLookup] at this)

/-! ## Phased execution engine (orchestrator.py)

A phase dict may carry its dependency edges under the key depends_on
(the intent_validator schema, the resume handler artifacts and the
repository tests all use depends_on) or under the key dependencies (the
key check_phase_dependencies actually reads); both are modelled as
optional fields. -/

/-- A plan step as read by prune_plans_by_policy: action and target are
fetched by dict.get with default empty string. -/
structure Step where
  action : Option String
  target : Option String
  deriving Repr, DecidableEq

/-- A phase dict.  phase_id is a number in every plan this engine
consumes (execute_plan_with_phases computes phase_id + 1 and compares
phase_id with the phase count). -/
structure Phase where
  phase_id : Nat
  depends_on : Option (List Nat)
  dependencies : Option (List Nat)
  steps : Option (List Step)
  deriving Repr, DecidableEq

/-- check_phase_dependencies: reads the dependencies key of the phase
dict (default empty list) and requires every listed id to appear in
completed_phases. -/
def check_phase_dependencies (phase : Phase) (completed_phases : List Nat) : Bool :=
  let dependencies := phase.dependencies.getD []
  if dependencies = [] then true
  else dependencies.all (fun dep_id => completed_phases.contains dep_id)

/-- Observer artifacts emitted by the phased execution engine. -/
inductive PhaseEvent where
  | phase_blocked (phase_id : Nat)
  | phase_started (phase_id : Nat)
  | phase_completed (phase_id : Nat)
  | plan_completed
  deriving Repr, DecidableEq

/-- State threaded through execute_plan_with_phases: the HALTED flag,
COMPLETED_PHASES, SKIPPED_PHASES and the emitted artifacts in order. -/
structure PhasedExecState where
  halted : Bool
  completed_phases : List Nat
  skipped_phases : List Nat
  events : List PhaseEvent
  deriving Repr, DecidableEq

/-- The body of the for-loop of execute_plan_with_phases, one phase at a
time.  total is len(phases) of the whole plan, used for the
next_phase_id computation.  Returns the final state and the return
value of the Python function (true when the plan ran to completion). -/
def execute_phases_from (total : Nat) : List Phase → PhasedExecState →
    PhasedExecState × Bool
  | [], st =>
    ({ st with events := st.events ++ [PhaseEvent.plan_completed] }, true)
  | phase :: rest, st =>
    let phase_id := phase.phase_id
    if st.skipped_phases.contains phase_id then
      execute_phases_from total rest st
    else if ¬ check_phase_dependencies phase st.completed_phases then
      ({ st with events := st.events ++ [PhaseEvent.phase_blocked phase_id],
                 halted := true }, false)
    else
      let st := { st with events := st.events ++ [PhaseEvent.phase_started phase_id] }
      let st := { st with
        completed_phases := st.completed_phases ++ [phase_id],
        events := st.events ++ [PhaseEvent.phase_completed phase_id] }
      let next_phase_id := if phase_id < total then some (phase_id + 1) else none
      match next_phase_id with
      | some _ => ({ st with halted := true }, false)
      | none => execute_phases_from total rest st

/-- execute_plan_with_phases for a plan whose phase list is phases,
starting from completed and skipped phase id lists (the COMPLETED_PHASES
and SKIPPED_PHASES globals). -/
def execute_plan_with_phases (phases : List Phase) (completed skipped : List Nat) :
    PhasedExecState × Bool :=
  if phases = [] then
    ({ halted := false, completed_phases := completed,
       skipped_phases := skipped, events := [] }, false)
  else
    execute_phases_from phases.length phases
      { halted := false, completed_phases := completed,
        skipped_phases := skipped, events := [] }

/-- C3 failing input: a single phase carrying its dependency edge under
the depends_on key, with no completed phases.  check_phase_dependencies
reads the dependencies key, finds nothing, and reports the phase as
eligible; the engine emits phase_started (never phase_blocked) and runs
the plan to completion even though depends_on names the uncompleted
phase 99.  The repository schema (intent_validator.py), its tests
(test_phase_execution.py) and the resume handler artifacts all place
dependency edges under depends_on, so such a phase must be blocked. -/
theorem phase_with_depends_on_starts_unblocked :
    let p : Phase := { phase_id := 1, depends_on := some [99],
                       dependencies := none, steps := some [] }
    check_phase_dependencies p [] = true ∧
    (99 ∈ p.depends_on.getD [] ∧ 99 ∉ ([] : List Nat)) ∧
    execute_plan_with_phases [p] [] [] =
      ({ halted := false, completed_phases := [1], skipped_phases := [],
         events := [PhaseEvent.phase_started 1, PhaseEvent.phase_completed 1,
                    PhaseEvent.plan_completed] }, true) := by
  refine ⟨rfl, ⟨by decide, by decide⟩, ?_⟩
  decide

/-- The intended reading holds for the key the code actually checks:
with the same edge stored under the dependencies key the engine emits
phase_blocked, halts, and never emits phase_started for that phase. -/
theorem phase_with_dependencies_is_blocked :
    let p : Phase := { phase_id := 1, depends_on := none,
                       dependencies := some [99], steps := some [] }
    check_phase_dependencies p [] = false ∧
    execute_plan_with_phases [p] [] [] =
      ({ halted := true, completed_phases := [], skipped_phases := [],
         events := [PhaseEvent.phase_blocked 1] }, false) := by
  exact ⟨rfl, by decide⟩

/-! ## Policy pruning (orchestrator.py, prune_plans_by_policy)

Violation messages are abstracted to fixed marker strings; the Python
source interpolates the offending action and target into them but the
pruning logic never inspects the message text. -/

/-- Python str.startswith. -/
def str_startswith (s pre : String) : Bool :=
  pre.data.isPrefixOf s.data

/-- A candidate plan as read by prune_plans_by_policy, rank_plans and
the resume handler (which looks up its phases list). -/
structure Plan where
  plan_id : Option String
  confidence : Option ℚ
  steps : Option (List Step)
  phases : Option (List Phase) := none
  deriving Repr, DecidableEq

/-- A plan set dict: the plans key may be absent. -/
structure PlanSet where
  plans : Option (List Plan)
  deriving Repr, DecidableEq

/-- The pruning_config sub-dict of the policy. -/
structure PruningConfig where
  min_plan_confidence : Option ℚ
  deriving Repr, DecidableEq

/-- The plan_safety_rules sub-dict of the policy. -/
structure PlanSafetyRules where
  sandbox_only_actions : Option (List String)
  forbidden_actions : Option (List String)
  deriving Repr, DecidableEq

/-- The ranking_config sub-dict of the policy. -/
structure RankingConfig where
  enable : Option Bool
  policy_friction_penalty : Option ℚ
  history_success_bonus : Option ℚ
  deriving Repr, DecidableEq

/-- The phase_execution_config sub-dict of the policy (the parts the
resume handler reads). -/
structure PhaseExecConfig where
  allow_phase_skipping : Option Bool
  approval_pattern_learning : Option Bool
  deriving Repr, DecidableEq

/-- The loaded policy object (only the parts pruning, ranking and the
resume handler read). -/
structure Policy where
  pruning_config : Option PruningConfig
  plan_safety_rules : Option PlanSafetyRules
  ranking_config : Option RankingConfig
  phase_execution_config : Option PhaseExecConfig := none
  deriving Repr, DecidableEq

/-- policy.get(pruning_config, empty).get(min_plan_confidence, 0.75). -/
def Policy.min_confidence (policy : Policy) : ℚ :=
  ((policy.pruning_config.getD ⟨none⟩).min_plan_confidence).getD (mkRat 75 100)

/-- policy.get(plan_safety_rules, empty).get(sandbox_only_actions, []). -/
def Policy.sandbox_only (policy : Policy) : List String :=
  ((policy.plan_safety_rules.getD ⟨none, none⟩).sandbox_only_actions).getD []

/-- policy.get(plan_safety_rules, empty).get(forbidden_actions, []). -/
def Policy.forbidden (policy : Policy) : List String :=
  ((policy.plan_safety_rules.getD ⟨none, none⟩).forbidden_actions).getD []

/-- The violations the step loop of prune_plans_by_policy appends for a
single step: a forbidden-action marker when the action is forbidden, and
a sandbox marker when the action is sandbox-only and the target is a
non-empty string that does not start with /tmp/ct-sandbox/. -/
def step_violations (step : Step) (forbidden_actions sandbox_only_actions : List String) :
    List String :=
  let action := step.action.getD ""
  (if forbidden_actions.contains action then ["action_forbidden_by_policy"] else []) ++
  (if sandbox_only_actions.contains action then
     let target := step.target.getD ""
     if target ≠ "" ∧ str_startswith target "/tmp/ct-sandbox/" = false then
       ["action_only_allowed_in_sandbox"]
     else []
   else [])

/-- All violations prune_plans_by_policy collects for one plan: the
plan-level confidence check (confidence defaults to 1.0 when absent)
followed by the per-step checks in step order. -/
def plan_violations (plan : Plan) (min_confidence : ℚ)
    (forbidden_actions sandbox_only_actions : List String) : List String :=
  (if plan.confidence.getD 1 < min_confidence then ["plan_confidence_below_threshold"]
   else []) ++
  (plan.steps.getD []).flatMap (fun step =>
    step_violations step forbidden_actions sandbox_only_actions)

/-- A rejected-plan record carrying the itemized reasons. -/
structure Rejection where
  plan_id : Option String
  reasons : List String
  deriving Repr, DecidableEq

/-- The plan loop of prune_plans_by_policy: each plan goes to the
approved list when it has no violations, otherwise to the rejection list
with its reasons. -/
def prune_loop (plans : List Plan) (min_confidence : ℚ)
    (forbidden_actions sandbox_only_actions : List String) :
    List Plan × List Rejection :=
  match plans with
  | [] => ([], [])
  | plan :: rest =>
    if plan_violations plan min_confidence forbidden_actions sandbox_only_actions = []
    then (plan ::
        (prune_loop rest min_confidence forbidden_actions sandbox_only_actions).1,
      (prune_loop rest min_confidence forbidden_actions sandbox_only_actions).2)
    else ((prune_loop rest min_confidence forbidden_actions sandbox_only_actions).1,
      (⟨plan.plan_id,
        plan_violations plan min_confidence forbidden_actions sandbox_only_actions⟩ :
        Rejection) ::
        (prune_loop rest min_confidence forbidden_actions sandbox_only_actions).2)

/-- prune_plans_by_policy: returns (approved_plans,
rejected_plans_with_reasons); an absent or empty plans list yields two
empty lists. -/
def prune_plans_by_policy (plan_set : PlanSet) (policy : Policy) :
    List Plan × List Rejection :=
  if plan_set.plans.getD [] = [] then ([], [])
  else prune_loop (plan_set.plans.getD []) policy.min_confidence
    policy.forbidden policy.sandbox_only

/-- The declarative violation predicate of the specification. -/
def spec_violates (plan : Plan) (min_confidence : ℚ)
    (forbidden_actions sandbox_only_actions : List String) : Prop :=
  plan.confidence.getD 1 < min_confidence ∨
  ∃ step ∈ plan.steps.getD [],
    forbidden_actions.contains (step.action.getD "") = true ∨
    (sandbox_only_actions.contains (step.action.getD "") = true ∧
      step.target.getD "" ≠ "" ∧
      str_startswith (step.target.getD "") "/tmp/ct-sandbox/" = false)

theorem step_violations_eq_nil_iff (step : Step) (fa sa : List String) :
    step_violations step fa sa = [] ↔
      ¬ (fa.contains (step.action.getD "") = true ∨
         (sa.contains (step.action.getD "") = true ∧
           step.target.getD "" ≠ "" ∧
           str_startswith (step.target.getD "") "/tmp/ct-sandbox/" = false)) := by
  unfold step_violations
  by_cases hf : fa.contains (step.action.getD "") = true
  · simp [hf]
  · by_cases hs : sa.contains (step.action.getD "") = true
    · by_cases ht : step.target.getD "" ≠ "" ∧
          str_startswith (step.target.getD "") "/tmp/ct-sandbox/" = false
      · simp [hf, hs, ht]
      · simp [hf, hs, ht]
    · simp [hf, hs]

theorem plan_violations_eq_nil_iff (plan : Plan) (mc : ℚ) (fa sa : List String) :
    plan_violations plan mc fa sa = [] ↔ ¬ spec_violates plan mc fa sa := by
  unfold plan_violations spec_violates
  rw [List.append_eq_nil, List.flatMap_eq_nil_iff]
  constructor
  · rintro ⟨hconf, hsteps⟩ (hlt | ⟨step, hmem, hviol⟩)
    · simp [hlt] at hconf
    · exact ((step_violations_eq_nil_iff step fa sa).mp (hsteps step hmem)) hviol
  · intro hno
    refine ⟨?_, ?_⟩
    · by_cases hlt : plan.confidence.getD 1 < mc
      · exact absurd (Or.inl hlt) hno
      · simp [hlt]
    · intro step hmem
      exact (step_violations_eq_nil_iff step fa sa).mpr
        (fun hviol => hno (Or.inr ⟨step, hmem, hviol⟩))

theorem mem_prune_loop_approved (plans : List Plan) (mc : ℚ) (fa sa : List String)
    (plan : Plan) :
    plan ∈ (prune_loop plans mc fa sa).1 ↔
      plan ∈ plans ∧ plan_violations plan mc fa sa = [] := by
  induction plans with
  | nil => simp [prune_loop]
  | cons p rest ih =>
    unfold prune_loop
    by_cases hv : plan_violations p mc fa sa = []
    · rw [if_pos hv]
      simp only [List.mem_cons]
      constructor
      · rintro (rfl | hmem)
        · exact ⟨Or.inl rfl, hv⟩
        · have h := ih.mp hmem
          exact ⟨Or.inr h.1, h.2⟩
      · rintro ⟨(rfl | hmem), hpv⟩
        · exact Or.inl rfl
        · exact Or.inr (ih.mpr ⟨hmem, hpv⟩)
    · rw [if_neg hv]
      simp only [List.mem_cons]
      constructor
      · intro hmem
        have h := ih.mp hmem
        exact ⟨Or.inr h.1, h.2⟩
      · rintro ⟨(rfl | hmem), hpv⟩
        · exact absurd hpv hv
        · exact ih.mpr ⟨hmem, hpv⟩

theorem mem_prune_loop_rejections (plans : List Plan) (mc : ℚ) (fa sa : List String)
    (plan : Plan) (hmem : plan ∈ plans)
    (hv : plan_violations plan mc fa sa ≠ []) :
    (⟨plan.plan_id, plan_violations plan mc fa sa⟩ : Rejection) ∈
      (prune_loop plans mc fa sa).2 := by
  induction plans with
  | nil => cases hmem
  | cons p rest ih =>
    unfold prune_loop
    rcases List.mem_cons.mp hmem with rfl | hmem
    · rw [if_neg hv]
      exact List.mem_cons_self _ _
    · by_cases hpv : plan_violations p mc fa sa = []
      · rw [if_pos hpv]
        exact ih hmem
      · rw [if_neg hpv]
        exact List.mem_cons_of_mem _ (ih hmem)

/-- C5: prune_plans_by_policy rejects a plan, with itemized reasons,
exactly when its confidence is below min_plan_confidence, or a step
action is forbidden, or a sandbox-only step has a (non-empty) target
outside the /tmp/ct-sandbox/ prefix; a plan with zero violations
survives into the approved list. -/
theorem prune_plans_by_policy_spec (plan_set : PlanSet) (policy : Policy)
    (plan : Plan) (hmem : plan ∈ plan_set.plans.getD []) :
    (plan ∈ (prune_plans_by_policy plan_set policy).1 ↔
      ¬ spec_violates plan policy.min_confidence policy.forbidden
          policy.sandbox_only) ∧
    (spec_violates plan policy.min_confidence policy.forbidden policy.sandbox_only →
      plan ∉ (prune_plans_by_policy plan_set policy).1 ∧
      ∃ r ∈ (prune_plans_by_policy plan_set policy).2,
        r.plan_id = plan.plan_id ∧ r.reasons ≠ []) := by
  have hne : ¬ plan_set.plans.getD [] = [] := by
    intro h
    rw [h] at hmem
    cases hmem
  unfold prune_plans_by_policy
  rw [if_neg hne]
  have happ := mem_prune_loop_approved (plan_set.plans.getD [])
    policy.min_confidence policy.forbidden policy.sandbox_only plan
  constructor
  · rw [happ, ← plan_violations_eq_nil_iff]
    exact ⟨fun h => h.2, fun h => ⟨hmem, h⟩⟩
  · intro hviol
    have hv : plan_violations plan policy.min_confidence policy.forbidden
        policy.sandbox_only ≠ [] := by
      rw [Ne, plan_violations_eq_nil_iff]
      exact fun h => h hviol
    refine ⟨?_, ?_⟩
    · rw [happ]
      exact fun h => hv h.2
    · exact ⟨⟨plan.plan_id, _⟩,
        mem_prune_loop_rejections _ _ _ _ plan hmem hv, rfl, hv⟩

/-- Witness for C5: a plan with a sandbox-only action targeting
/etc/passwd is rejected with a non-empty reason list, mirroring the
specification example. -/
theorem prune_plans_by_policy_spec_witness :
    let plan : Plan := { plan_id := some "A", confidence := some 0.9,
                         steps := some [{ action := some "create_file",
                                          target := some "/etc/passwd" }] }
    let policy : Policy :=
      { pruning_config := some ⟨some 0.75⟩,
        plan_safety_rules := some ⟨some ["create_file"], some ["delete_repo"]⟩,
        ranking_config := none }
    let plan_set : PlanSet := { plans := some [plan] }
    plan ∈ plan_set.plans.getD [] ∧
    spec_violates plan policy.min_confidence policy.forbidden policy.sandbox_only ∧
    (plan ∉ (prune_plans_by_policy plan_set policy).1 ∧
      ∃ r ∈ (prune_plans_by_policy plan_set policy).2,
        r.plan_id = plan.plan_id ∧ r.reasons ≠ []) := by
  intro plan policy plan_set
  have hmem : plan ∈ plan_set.plans.getD [] := List.Mem.head _
  have hviol : spec_violates plan policy.min_confidence policy.forbidden
      policy.sandbox_only := by
    refine Or.inr ⟨{ action := some "create_file", target := some "/etc/passwd" },
      List.Mem.head _, Or.inr ⟨rfl, by decide, by decide⟩⟩
  exact ⟨hmem, hviol,
    (prune_plans_by_policy_spec plan_set policy plan hmem).2 hviol⟩

/-- C10: the sandbox-only constraint is enforced only for steps whose
target is present and non-empty.  A sandbox-only step with a missing or
empty target contributes no violation, and the plan survives pruning
when its confidence meets the threshold and no step has any violation. -/
theorem prune_sandbox_requires_target (plan_set : PlanSet) (policy : Policy)
    (plan : Plan) (step : Step)
    (hplan : plan ∈ plan_set.plans.getD [])
    (hstep : step ∈ plan.steps.getD [])
    (hsand : policy.sandbox_only.contains (step.action.getD "") = true)
    (htarget : step.target.getD "" = "")
    (hforb : policy.forbidden.contains (step.action.getD "") = false) :
    step_violations step policy.forbidden policy.sandbox_only = [] ∧
    ((∀ s ∈ plan.steps.getD [],
        step_violations s policy.forbidden policy.sandbox_only = []) →
      policy.min_confidence ≤ plan.confidence.getD 1 →
      plan ∈ (prune_plans_by_policy plan_set policy).1) := by
  constructor
  · rw [step_violations_eq_nil_iff]
    rintro (hf | ⟨_, hne, _⟩)
    · rw [hforb] at hf
      cases hf
    · exact hne htarget
  · intro hall hconf
    have hne : ¬ plan_set.plans.getD [] = [] := by
      intro h
      rw [h] at hplan
      cases hplan
    unfold prune_plans_by_policy
    rw [if_neg hne]
    rw [mem_prune_loop_approved]
    refine ⟨hplan, ?_⟩
    rw [plan_violations_eq_nil_iff]
    rintro (hlt | ⟨s, hs, hviol⟩)
    · exact absurd hconf (not_le.mpr hlt)
    · exact (step_violations_eq_nil_iff s _ _).mp (hall s hs) hviol

/-- Witness for C10: a plan whose only step is a sandbox-only action
with an absent target survives pruning. -/
theorem prune_sandbox_requires_target_witness :
    let step : Step := { action := some "create_file", target := none }
    let plan : Plan := { plan_id := some "B", confidence := some 0.9,
                         steps := some [step] }
    let policy : Policy :=
      { pruning_config := some ⟨some 0.75⟩,
        plan_safety_rules := some ⟨some ["create_file"], some ["delete_repo"]⟩,
        ranking_config := none }
    let plan_set : PlanSet := { plans := some [plan] }
    step_violations step policy.forbidden policy.sandbox_only = [] ∧
    plan ∈ (prune_plans_by_policy plan_set policy).1 := by
  intro step plan policy plan_set
  have h := prune_sandbox_requires_target plan_set policy plan step
    (List.Mem.head _) (List.Mem.head _) rfl rfl rfl
  refine ⟨h.1, h.2 ?_ (by norm_num [Policy.min_confidence])⟩
  intro s hs
  rcases List.mem_singleton.mp hs with rfl
  exact h.1

/-! ## Plan ranking (orchestrator.py, rank_plans)

The Python function rounds the numbers it copies into the ranking
breakdown dicts to three decimals for display; the breakdown here keeps
the exact values, which the ranking logic itself uses throughout. -/

/-- The ranking_config sub-dict with dict.get defaults applied. -/
def Policy.rankingConfig (policy : Policy) : RankingConfig :=
  policy.ranking_config.getD ⟨none, none, none⟩

/-- Python max(0.0, min(1.0, x)). -/
def clamp01 (x : ℚ) : ℚ := pymax 0 (pymin 1 x)

/-- The calibration multiplier rank_plans uses: the calibration entry
for the fixed key (plan_action, propose), default 1.0, then the plan
order bias for plan ids A, B, C, each capped at 1.0. -/
def rank_calibration_multiplier (cal : Calibration) (plan_id : Option String) : ℚ :=
  let m := (calLookup cal (some "plan_action", some "propose")).getD 1
  if plan_id = some "A" then pymin (m * 1) 1
  else if plan_id = some "B" then pymin (m * mkRat 98 100) 1
  else if plan_id = some "C" then pymin (m * mkRat 95 100) 1
  else m

/-- The history bonus rank_plans computes: the configured
history_success_bonus (default 0.05) times the neutral factor 0.5. -/
def rank_history_bonus (policy : Policy) : ℚ :=
  (policy.rankingConfig.history_success_bonus).getD (mkRat 5 100) * mkRat 50 100

/-- The final score rank_plans assigns to a plan: base confidence
(default 0.50) times the biased calibration multiplier, minus the
hard-coded friction 0.0, plus the history bonus, clamped to [0, 1]. -/
def rank_score (cal : Calibration) (policy : Policy) (plan : Plan) : ℚ :=
  clamp01 (plan.confidence.getD (mkRat 50 100) *
    rank_calibration_multiplier cal plan.plan_id - 0 + rank_history_bonus policy)

/-- One entry of the ranking breakdown. -/
structure Breakdown where
  plan_id : Option String
  base_confidence : ℚ
  calibration_multiplier : ℚ
  confidence_component : ℚ
  policy_friction : ℚ
  history_bonus : ℚ
  final_score : ℚ
  deriving Repr, DecidableEq

/-- One (plan, final_score, breakdown) tuple of plans_with_scores. -/
structure Scored where
  plan : Plan
  final_score : ℚ
  breakdown : Breakdown
  deriving Repr, DecidableEq

/-- Builds the plans_with_scores tuple for one plan. -/
def mk_scored (cal : Calibration) (policy : Policy) (plan : Plan) : Scored :=
  { plan := plan,
    final_score := rank_score cal policy plan,
    breakdown :=
      { plan_id := plan.plan_id,
        base_confidence := plan.confidence.getD (mkRat 50 100),
        calibration_multiplier := rank_calibration_multiplier cal plan.plan_id,
        confidence_component :=
          plan.confidence.getD (mkRat 50 100) *
            rank_calibration_multiplier cal plan.plan_id,
        policy_friction := 0,
        history_bonus := rank_history_bonus policy,
        final_score := rank_score cal policy plan } }

/-- The descending sort key relation of plans_with_scores.sort with
reverse set: an element may precede another when its score is at least
as large. -/
def score_ge (a b : Scored) : Prop := b.final_score ≤ a.final_score

instance : DecidableRel score_ge := fun a b => Rat.instDecidableLe b.final_score a.final_score

instance : IsTotal Scored score_ge := ⟨fun a b => le_total b.final_score a.final_score⟩

instance : IsTrans Scored score_ge := ⟨fun _ _ _ h1 h2 => le_trans h2 h1⟩

/-- rank_plans: with ranking enabled (the default), score every plan,
sort descending by score with the stable Python sort, and return the
ranked plans together with the breakdowns in ranked order; with ranking
disabled, return the plans in original order with no breakdown. -/
def rank_plans (plan_set : PlanSet) (cal : Calibration) (policy : Policy) :
    List Plan × List Breakdown :=
  if plan_set.plans.getD [] = [] then ([], [])
  else if (policy.rankingConfig.enable).getD true = false then
    (plan_set.plans.getD [], [])
  else
    let sorted := List.insertionSort score_ge
      ((plan_set.plans.getD []).map (mk_scored cal policy))
    (sorted.map (fun x => x.plan), sorted.map (fun x => x.breakdown))

theorem filter_score_orderedInsert (s : ℚ) (x : Scored) (l : List Scored) :
    (List.orderedInsert score_ge x l).filter (fun y => decide (y.final_score = s)) =
      if x.final_score = s then
        x :: l.filter (fun y => decide (y.final_score = s))
      else l.filter (fun y => decide (y.final_score = s)) := by
  induction l with
  | nil =>
    by_cases h : x.final_score = s <;> simp [List.orderedInsert, h]
  | cons y ys ih =>
    rw [List.orderedInsert]
    by_cases hr : score_ge x y
    · rw [if_pos hr]
      by_cases hx : x.final_score = s <;>
        by_cases hy : y.final_score = s <;>
          simp [List.filter, hx, hy]
    · rw [if_neg hr]
      by_cases hx : x.final_score = s
      · have hy : ¬ y.final_score = s := by
          intro h
          exact hr (by rw [score_ge, h, hx])
        simp [List.filter, hx, hy, ih]
      · by_cases hy : y.final_score = s <;> simp [List.filter, hx, hy, ih]

theorem filter_score_insertionSort (s : ℚ) (l : List Scored) :
    (List.insertionSort score_ge l).filter (fun y => decide (y.final_score = s)) =
      l.filter (fun y => decide (y.final_score = s)) := by
  induction l with
  | nil => rfl
  | cons x xs ih =>
    rw [List.insertionSort, filter_score_orderedInsert]
    by_cases hx : x.final_score = s <;> simp [List.filter, hx, ih]

theorem mem_insertionSort_score (cal : Calibration) (policy : Policy)
    (plans : List Plan) (x : Scored)
    (hx : x ∈ List.insertionSort score_ge (plans.map (mk_scored cal policy))) :
    x.final_score = rank_score cal policy x.plan ∧
    x.breakdown.final_score = rank_score cal policy x.plan := by
  have hmem : x ∈ plans.map (mk_scored cal policy) :=
    (List.perm_insertionSort score_ge _).subset hx
  rcases List.mem_map.mp hmem with ⟨p, _, rfl⟩
  exact ⟨rfl, rfl⟩

theorem filter_plan_of_scored (l : List Scored) (q : Plan → Bool) :
    (l.map (fun x => x.plan)).filter q =
      (l.filter (fun x => q x.plan)).map (fun x => x.plan) := by
  induction l with
  | nil => rfl
  | cons x xs ih =>
    by_cases h : q x.plan <;> simp [List.filter, h, ih]

theorem filter_scored_congr (l : List Scored) (cal : Calibration) (policy : Policy)
    (s : ℚ) (h : ∀ x ∈ l, x.final_score = rank_score cal policy x.plan) :
    l.filter (fun x => decide (rank_score cal policy x.plan = s)) =
      l.filter (fun x => decide (x.final_score = s)) := by
  induction l with
  | nil => rfl
  | cons x xs ih =>
    have hx := h x (List.Mem.head _)
    have hrest := ih (fun y hy => h y (List.Mem.tail _ hy))
    simp [List.filter_cons, hrest, hx]

/-- The concrete inputs of the ranking tie counterexample. -/
def rank_cex_planB : Plan := { plan_id := some "B", confidence := some 1, steps := none }

/-- The concrete inputs of the ranking tie counterexample. -/
def rank_cex_planA : Plan := { plan_id := some "A", confidence := some 1, steps := none }

/-- A policy with no ranking_config: rank_plans falls back to all its
defaults (ranking enabled, history bonus 0.05). -/
def rank_cex_policy : Policy :=
  { pruning_config := none, plan_safety_rules := none, ranking_config := none }

/-- A plan set listing plan B before plan A. -/
def rank_cex_set : PlanSet := { plans := some [rank_cex_planB, rank_cex_planA] }

/-- C6 counterexample: two plans with confidence 1.0 listed in the
order B then A, empty calibration, default policy.  Both final scores
clamp to exactly 1 (a tie), and rank_plans returns them in original
list order B, A — not in the plan-id order A, B that the claim says
breaks ties. -/
theorem rank_plans_tie_not_plan_id_order :
    rank_score [] rank_cex_policy rank_cex_planA =
      rank_score [] rank_cex_policy rank_cex_planB ∧
    (rank_plans rank_cex_set [] rank_cex_policy).1.map (fun p => p.plan_id) =
      [some "B", some "A"] := by
  have hbonus : rank_history_bonus rank_cex_policy = mkRat 5 100 * mkRat 50 100 := rfl
  have hA : rank_score [] rank_cex_policy rank_cex_planA = 1 := by
    show clamp01 ((1 : ℚ) * pymin (1 * 1) 1 - 0 + rank_history_bonus rank_cex_policy) = 1
    rw [hbonus]
    norm_num [clamp01, pymin, pymax, Rat.mkRat_eq_divInt]
  have hB : rank_score [] rank_cex_policy rank_cex_planB = 1 := by
    show clamp01 ((1 : ℚ) * pymin (1 * mkRat 98 100) 1 - 0 +
      rank_history_bonus rank_cex_policy) = 1
    rw [hbonus]
    norm_num [clamp01, pymin, pymax, Rat.mkRat_eq_divInt]
  have hge : score_ge (mk_scored [] rank_cex_policy rank_cex_planB)
      (mk_scored [] rank_cex_policy rank_cex_planA) := by
    show rank_score [] rank_cex_policy rank_cex_planA ≤
      rank_score [] rank_cex_policy rank_cex_planB
    rw [hA, hB]
  have hsort : List.insertionSort score_ge
      ((rank_cex_set.plans.getD []).map (mk_scored [] rank_cex_policy)) =
      [mk_scored [] rank_cex_policy rank_cex_planB,
       mk_scored [] rank_cex_policy rank_cex_planA] := by
    show List.orderedInsert score_ge (mk_scored [] rank_cex_policy rank_cex_planB)
        (List.orderedInsert score_ge (mk_scored [] rank_cex_policy rank_cex_planA) [])
      = _
    simp only [List.orderedInsert]
    rw [if_pos hge]
  refine ⟨hA.trans hB.symm, ?_⟩
  show ((List.insertionSort score_ge
      ((rank_cex_set.plans.getD []).map (mk_scored [] rank_cex_policy))).map
        (fun x => x.plan)).map (fun p => p.plan_id) = [some "B", some "A"]
  rw [hsort]
  rfl

/-- C6 (amended): with ranking enabled, rank_plans assigns each plan
the score clamp01(confidence times the order-biased calibration
multiplier, minus a hard-coded zero friction, plus half the configured
history bonus) and returns a permutation of the plans sorted by that
score descending, where plans with equal scores keep their original
list order (stable sort); the breakdowns carry the same scores in
ranked order. -/
theorem rank_plans_sorted_stable (plan_set : PlanSet) (cal : Calibration)
    (policy : Policy)
    (hen : (policy.rankingConfig.enable).getD true = true) :
    ((rank_plans plan_set cal policy).1).Perm (plan_set.plans.getD []) ∧
    List.Sorted (fun a b => rank_score cal policy b ≤ rank_score cal policy a)
      (rank_plans plan_set cal policy).1 ∧
    (∀ s : ℚ,
      (rank_plans plan_set cal policy).1.filter
          (fun p => decide (rank_score cal policy p = s)) =
        (plan_set.plans.getD []).filter
          (fun p => decide (rank_score cal policy p = s))) ∧
    ((rank_plans plan_set cal policy).2).map (fun b => b.final_score) =
      ((rank_plans plan_set cal policy).1).map (rank_score cal policy) := by
  by_cases hnil : plan_set.plans.getD [] = []
  · unfold rank_plans
    rw [if_pos hnil, hnil]
    exact ⟨List.Perm.refl _, List.sorted_nil, fun s => rfl, rfl⟩
  · unfold rank_plans
    rw [if_neg hnil, if_neg (by simp [hen])]
    dsimp only
    refine ⟨?_, ?_, ?_, ?_⟩
    · have hperm := (List.perm_insertionSort score_ge
        ((plan_set.plans.getD []).map (mk_scored cal policy))).map
        (fun x => x.plan)
      refine hperm.trans ?_
      rw [List.map_map]
      have : ((fun x => x.plan) ∘ mk_scored cal policy) = id := rfl
      rw [this, List.map_id]
    · have hs := List.sorted_insertionSort score_ge
        ((plan_set.plans.getD []).map (mk_scored cal policy))
      rw [List.Sorted, List.pairwise_map]
      refine List.Pairwise.imp_of_mem ?_ hs
      intro a b ha hb hab
      have hfa := (mem_insertionSort_score cal policy _ a ha).1
      have hfb := (mem_insertionSort_score cal policy _ b hb).1
      rw [← hfa, ← hfb]
      exact hab
    · intro s
      rw [filter_plan_of_scored]
      rw [filter_scored_congr _ cal policy s
        (fun x hx => (mem_insertionSort_score cal policy _ x hx).1)]
      rw [filter_score_insertionSort]
      rw [← filter_scored_congr _ cal policy s
        (fun x hx => by rcases List.mem_map.mp hx with ⟨p, _, rfl⟩; rfl)]
      rw [← filter_plan_of_scored _ (fun p => decide (rank_score cal policy p = s)),
        List.map_map]
      have h : ((fun x => x.plan) ∘ mk_scored cal policy) = id := rfl
      rw [h, List.map_id]
    · rw [List.map_map, List.map_map]
      refine List.map_congr_left ?_
      intro x hx
      have h := mem_insertionSort_score cal policy _ x hx
      show x.breakdown.final_score = rank_score cal policy x.plan
      exact h.2

/-- Witness for the amended C6 at the concrete tie inputs: ranking is
enabled by default and the returned list is a sorted permutation. -/
theorem rank_plans_sorted_stable_witness :
    (rank_cex_policy.rankingConfig.enable).getD true = true ∧
    ((rank_plans rank_cex_set [] rank_cex_policy).1).Perm
      (rank_cex_set.plans.getD []) ∧
    List.Sorted
      (fun a b => rank_score [] rank_cex_policy b ≤ rank_score [] rank_cex_policy a)
      (rank_plans rank_cex_set [] rank_cex_policy).1 :=
  ⟨rfl, (rank_plans_sorted_stable rank_cex_set [] rank_cex_policy rfl).1,
    (rank_plans_sorted_stable rank_cex_set [] rank_cex_policy rfl).2.1⟩

/-! ## Gateway security layer (gateway_auth.py and gateway/gateway_auth.py)

The two copies share the key validator, rate limiter and size validator
verbatim; they differ only in check_permission, where the copy under
gateway/ strips the query string from the path before checking and the
root copy does not. -/

/-- APIKeyValidator.VALID_TEST_KEYS. -/
def VALID_TEST_KEYS : List String :=
  ["sk_test_12345", "sk_test_abcde", "sk_test_valid",
   "sk_test_validation_key_1234567890ab"]

/-- APIKeyValidator.VALID_PROD_KEYS (empty in both copies). -/
def VALID_PROD_KEYS : List String := []

/-- APIKeyValidator.validate: deny-by-default key check (the empty
string is the falsy non-key case). -/
def validate_api_key (api_key : String) : Bool :=
  if api_key = "" then false
  else if VALID_TEST_KEYS.contains api_key then true
  else if VALID_PROD_KEYS.contains api_key then true
  else false

/-- RateLimiter.MAX_REQUESTS_PER_SECOND. -/
def MAX_REQUESTS_PER_SECOND : Nat := 10

/-- RateLimiter.WINDOW_SIZE (1.0 seconds). -/
def WINDOW_SIZE : ℚ := 1

/-- The RateLimiter.request_history dict: per-key timestamp lists. -/
abbrev RateHistory := List (String × List ℚ)

/-- Dict lookup with default empty list (a missing key behaves like the
freshly initialized empty history). -/
def rlLookup (h : RateHistory) (key : String) : List ℚ :=
  ((h.find? (fun kv => kv.1 = key)).map (fun kv => kv.2)).getD []

/-- Dict assignment request_history[key] = v. -/
def rlInsert (h : RateHistory) (key : String) (v : List ℚ) : RateHistory :=
  match h with
  | [] => [(key, v)]
  | kv :: rest =>
    if kv.1 = key then (key, v) :: rest else kv :: rlInsert rest key v

theorem rlLookup_rlInsert_self (h : RateHistory) (key : String) (v : List ℚ) :
    rlLookup (rlInsert h key v) key = v := by
  induction h with
  | nil => simp [rlInsert, rlLookup]
  | cons kv rest ih =>
    by_cases hk : kv.1 = key
    · simp [rlInsert, hk, rlLookup, List.find?]
    · simpa [rlInsert, hk, rlLookup, List.find?] using ih

/-- RateLimiter.check_and_record at time now: evict entries at least
WINDOW_SIZE old, refuse when MAX_REQUESTS_PER_SECOND recent entries
remain, otherwise record the request. -/
def check_and_record (h : RateHistory) (api_key : String) (now : ℚ) :
    Bool × RateHistory :=
  let recent := (rlLookup h api_key).filter (fun ts => now - ts < WINDOW_SIZE)
  if MAX_REQUESTS_PER_SECOND ≤ recent.length then
    (false, rlInsert h api_key recent)
  else
    (true, rlInsert h api_key (recent ++ [now]))

/-- RequestSizeValidator limits. -/
def MAX_BODY_SIZE : Nat := 1024 * 1024

/-- RequestSizeValidator limits. -/
def MAX_HEADER_SIZE : Nat := 8 * 1024

/-- RequestSizeValidator limits. -/
def MAX_URL_LENGTH : Nat := 2 * 1024

/-- RequestSizeValidator.validate_request: URL length, aggregate header
size, and body size for the mutating methods. -/
def validate_request_size (method url : String) (headers : List (String × String))
    (body_size : Nat) : Bool :=
  if MAX_URL_LENGTH < url.length then false
  else if MAX_HEADER_SIZE <
      headers.foldl (fun acc kv => acc + kv.1.length + kv.2.length) 0 then false
  else if (method = "POST" ∨ method = "PUT" ∨ method = "PATCH") ∧
      MAX_BODY_SIZE < body_size then false
  else true

/-- PermissionChecker.ALLOWED_ENDPOINTS (identical in both copies). -/
def ALLOWED_ENDPOINTS : List (String × String) :=
  [("POST", "/intent"),
   ("GET", "/governance/orchestrator-state"),
   ("GET", "/governance/plans"),
   ("GET", "/governance/plans/\x7bplan_id\x7d"),
   ("GET", "/governance/intents"),
   ("GET", "/governance/audit"),
   ("GET", "/healthz"),
   ("GET", "/readyz")]

/-- PermissionChecker.FORBIDDEN_PATHS. -/
def FORBIDDEN_PATHS : List String :=
  ["/internal/", "/approve", "/resume", "/release-halt"]

/-- PermissionChecker.FORBIDDEN_METHODS. -/
def FORBIDDEN_METHODS : List String := ["PUT", "DELETE", "PATCH"]

/-- Python path.split with separator question mark, first component. -/
def strip_query (path : String) : String :=
  String.mk (path.data.takeWhile (fun c => c ≠ '?'))

/-- check_permission of the root copy gateway_auth.py: no query
stripping; deny forbidden methods and path prefixes, allow the plan
detail prefix for GET and the fixed endpoint list. -/
def check_permission (method path : String) : Bool :=
  if FORBIDDEN_METHODS.contains method then false
  else if FORBIDDEN_PATHS.any (fun fp => str_startswith path fp) then false
  else if method = "GET" ∧ str_startswith path "/governance/plans/" then true
  else if ALLOWED_ENDPOINTS.contains (method, path) then true
  else false

/-- check_permission of the copy under gateway/: identical except the
path is first normalized by stripping query parameters. -/
def check_permission_gw (method path : String) : Bool :=
  check_permission method (strip_query path)

/-- SecurityContext.validate_request of the root copy: the four checks
in order, short-circuiting with 401, 429, 400, 403, else 200. -/
def validate_request (h : RateHistory) (api_key method path : String)
    (headers : List (String × String)) (body_size : Nat) (now : ℚ) :
    (Nat × Option String) × RateHistory :=
  if validate_api_key api_key = false then ((401, some "AUTH_INVALID_KEY"), h)
  else
    let rate := check_and_record h api_key now
    if rate.1 = false then ((429, some "RATE_LIMIT_EXCEEDED"), rate.2)
    else if validate_request_size method path headers body_size = false then
      ((400, some "INVALID_REQUEST"), rate.2)
    else if check_permission method path = false then
      ((403, some "AUTH_INSUFFICIENT_PERMISSION"), rate.2)
    else ((200, none), rate.2)

/-- SecurityContext.validate_request of the copy under gateway/:
identical except for the query-stripping permission check. -/
def validate_request_gw (h : RateHistory) (api_key method path : String)
    (headers : List (String × String)) (body_size : Nat) (now : ℚ) :
    (Nat × Option String) × RateHistory :=
  if validate_api_key api_key = false then ((401, some "AUTH_INVALID_KEY"), h)
  else
    let rate := check_and_record h api_key now
    if rate.1 = false then ((429, some "RATE_LIMIT_EXCEEDED"), rate.2)
    else if validate_request_size method path headers body_size = false then
      ((400, some "INVALID_REQUEST"), rate.2)
    else if check_permission_gw method path = false then
      ((403, some "AUTH_INSUFFICIENT_PERMISSION"), rate.2)
    else ((200, none), rate.2)

/-- C9: the two gateway security copies are not equivalent.  A GET to
the allowed governance audit endpoint carrying a query string, with a
valid un-rate-limited key, passes the copy under gateway/ (which strips
the query before the permission check) and is rejected 403 by the root
copy (which matches the raw path against the allow list). -/
theorem gateway_copies_disagree :
    validate_api_key "sk_test_12345" = true ∧
    strip_query "/governance/audit?limit=10" = "/governance/audit" ∧
    (validate_request_gw [] "sk_test_12345" "GET" "/governance/audit?limit=10"
      [] 0 0).1 = (200, none) ∧
    (validate_request [] "sk_test_12345" "GET" "/governance/audit?limit=10"
      [] 0 0).1 = (403, some "AUTH_INSUFFICIENT_PERMISSION") :=
  ⟨rfl, rfl, rfl, rfl⟩

/-- Repeated authenticated requests from one key: each request goes
through the full validate_request chain at its own timestamp and the
rate history threads through. -/
def run_requests (api_key method path : String) (headers : List (String × String))
    (body_size : Nat) :
    RateHistory → List ℚ → List (Nat × Option String) × RateHistory
  | h, [] => ([], h)
  | h, now :: rest =>
    let step := validate_request h api_key method path headers body_size now
    let next := run_requests api_key method path headers body_size step.2 rest
    (step.1 :: next.1, next.2)

theorem validate_request_step (h : RateHistory) (api_key method path : String)
    (headers : List (String × String)) (body_size : Nat) (now : ℚ)
    (hkey : validate_api_key api_key = true)
    (hsize : validate_request_size method path headers body_size = true)
    (hperm : check_permission method path = true)
    (hist : List ℚ) (hh : rlLookup h api_key = hist)
    (hwin : ∀ t2 ∈ hist, now - t2 < 1) :
    validate_request h api_key method path headers body_size now =
      (if 10 ≤ hist.length then
        ((429, some "RATE_LIMIT_EXCEEDED"), rlInsert h api_key hist)
       else ((200, none), rlInsert h api_key (hist ++ [now]))) := by
  have hfilter : hist.filter (fun ts => now - ts < WINDOW_SIZE) = hist := by
    rw [List.filter_eq_self]
    intro a ha
    exact decide_eq_true (by simpa [WINDOW_SIZE] using hwin a ha)
  unfold validate_request check_and_record
  rw [hkey, hh, hfilter]
  simp only [MAX_REQUESTS_PER_SECOND]
  by_cases hlen : 10 ≤ hist.length
  · rw [if_pos hlen, if_pos hlen]
    simp
  · rw [if_neg hlen, if_neg hlen]
    simp [hsize, hperm]

theorem run_requests_within_window (api_key method path : String)
    (headers : List (String × String)) (body_size : Nat)
    (hkey : validate_api_key api_key = true)
    (hsize : validate_request_size method path headers body_size = true)
    (hperm : check_permission method path = true) :
    ∀ (times : List ℚ) (hist : List ℚ) (h : RateHistory),
      rlLookup h api_key = hist →
      (∀ t ∈ times, ∀ t2 ∈ hist, t - t2 < 1) →
      (∀ t ∈ times, ∀ t2 ∈ times, t - t2 < 1) →
      (run_requests api_key method path headers body_size h times).1 =
        (List.range times.length).map
          (fun k => if hist.length + k < 10 then ((200 : Nat), (none : Option String))
                    else (429, some "RATE_LIMIT_EXCEEDED")) ∧
      rlLookup (run_requests api_key method path headers body_size h times).2 api_key =
        hist ++ times.take (10 - hist.length) := by
  intro times
  induction times with
  | nil =>
    intro hist h hh _ _
    simp [run_requests, hh]
  | cons now rest ih =>
    intro hist h hh hwh hww
    have hstep := validate_request_step h api_key method path headers body_size now
      hkey hsize hperm hist hh
      (fun t0 ht0 => hwh now (List.Mem.head _) t0 ht0)
    simp only [run_requests]
    rw [hstep, List.length_cons, List.range_succ_eq_map, List.map_cons, List.map_map]
    by_cases hlen : 10 ≤ hist.length
    · rw [if_pos hlen]
      have hnext := ih hist (rlInsert h api_key hist)
        (rlLookup_rlInsert_self h api_key hist)
        (fun t ht t0 ht0 => hwh t (List.Mem.tail _ ht) t0 ht0)
        (fun t ht t0 ht0 => hww t (List.Mem.tail _ ht) t0 (List.Mem.tail _ ht0))
      dsimp only
      constructor
      · rw [if_neg (show ¬ hist.length + 0 < 10 by omega)]
        refine congrArg _ ?_
        rw [hnext.1]
        refine List.map_congr_left ?_
        intro k _
        rw [if_neg (by omega), Function.comp_apply, if_neg (by omega)]
      · rw [hnext.2]
        have h10 : 10 - hist.length = 0 := by omega
        simp [h10]
    · rw [if_neg hlen]
      have hnext := ih (hist ++ [now]) (rlInsert h api_key (hist ++ [now]))
        (rlLookup_rlInsert_self h api_key (hist ++ [now]))
        (fun t ht t0 ht0 => by
          rcases List.mem_append.mp ht0 with h2 | h2
          · exact hwh t (List.Mem.tail _ ht) t0 h2
          · rw [List.mem_singleton.mp h2]
            exact hww t (List.Mem.tail _ ht) now (List.Mem.head _))
        (fun t ht t0 ht0 => hww t (List.Mem.tail _ ht) t0 (List.Mem.tail _ ht0))
      dsimp only
      constructor
      · rw [if_pos (show hist.length + 0 < 10 by omega)]
        refine congrArg _ ?_
        rw [hnext.1]
        refine List.map_congr_left ?_
        intro k _
        rw [List.length_append, List.length_singleton, Function.comp_apply]
        exact if_congr (by omega) rfl rfl
      · rw [hnext.2]
        have hm : 10 - hist.length = (10 - (hist ++ [now]).length) + 1 := by
          rw [List.length_append, List.length_singleton]
          omega
        rw [hm, List.take_succ_cons, List.length_append, List.length_singleton,
          List.append_assoc, List.singleton_append]

/-- C7: for a fixed API key that passes authentication (and a request
shape passing the size and permission checks), the 11th request inside
a rolling one-second window is rejected with 429 RATE_LIMIT_EXCEEDED
after ten 200s, and a request from the same key 1.1 seconds after the
burst succeeds again. -/
theorem rate_limit_11th_and_recovery (api_key method path : String)
    (headers : List (String × String)) (body_size : Nat)
    (times : List ℚ) (t2 : ℚ)
    (hkey : validate_api_key api_key = true)
    (hsize : validate_request_size method path headers body_size = true)
    (hperm : check_permission method path = true)
    (hlen : times.length = 11)
    (hwin : ∀ a ∈ times, ∀ b ∈ times, a - b < 1)
    (hidle : ∀ t ∈ times, 11/10 ≤ t2 - t) :
    (run_requests api_key method path headers body_size [] times).1 =
      List.replicate 10 ((200 : Nat), (none : Option String)) ++
        [(429, some "RATE_LIMIT_EXCEEDED")] ∧
    (validate_request (run_requests api_key method path headers body_size [] times).2
      api_key method path headers body_size t2).1 = (200, none) := by
  have hrun := run_requests_within_window api_key method path headers body_size
    hkey hsize hperm times [] [] rfl (by intro t _ t0 ht0; cases ht0) hwin
  constructor
  · rw [hrun.1, hlen]
    decide
  · have hlook : rlLookup
        (run_requests api_key method path headers body_size [] times).2 api_key =
        times.take 10 := by
      rw [hrun.2]
      rfl
    have hfilter : (times.take 10).filter (fun ts => t2 - ts < WINDOW_SIZE) = [] := by
      rw [List.filter_eq_nil_iff]
      intro a ha
      have hmem : a ∈ times := List.take_subset 10 times ha
      have hge := hidle a hmem
      simp only [WINDOW_SIZE, decide_eq_true_eq, not_lt]
      linarith
    unfold validate_request check_and_record
    rw [hkey, hlook, hfilter]
    simp [MAX_REQUESTS_PER_SECOND, hsize, hperm]

/-- Witness for C7: eleven requests at time 0 from a valid key against
an allowed endpoint; the 11th gets 429 and a request at time 2 (1.1
seconds later than every burst request) gets 200 again. -/
theorem rate_limit_11th_and_recovery_witness :
    (run_requests "sk_test_12345" "GET" "/governance/plans" [] 0 []
        (List.replicate 11 (0 : ℚ))).1 =
      List.replicate 10 ((200 : Nat), (none : Option String)) ++
        [(429, some "RATE_LIMIT_EXCEEDED")] ∧
    (validate_request
      (run_requests "sk_test_12345" "GET" "/governance/plans" [] 0 []
        (List.replicate 11 (0 : ℚ))).2
      "sk_test_12345" "GET" "/governance/plans" [] 0 2).1 = (200, none) :=
  rate_limit_11th_and_recovery "sk_test_12345" "GET" "/governance/plans" [] 0
    (List.replicate 11 0) 2 rfl rfl rfl rfl
    (fun a ha b hb => by
      rw [List.eq_of_mem_replicate ha, List.eq_of_mem_replicate hb]
      norm_num)
    (fun t ht => by
      rw [List.eq_of_mem_replicate ht]
      norm_num)

/-! ## The /internal/resume signal handler (orchestrator.py, do_POST)

The handler parses the body, stores the approval fields in the
orchestrator globals, clears the staged-phase cache only when the body
carries a truthy approve_phase_id, a non-empty skip_phases or abort,
validates a phase approval against the current plan, validates a skip
request against the policy, and finally raises the resume flag.  The
approval-pattern side table record_approval_pattern appends to is not
modelled; it is write-only bookkeeping the handler never reads. -/

/-- The metadata record stage_next_phase_if_applicable caches per plan
(the generated_at wall-clock string is dropped). -/
structure StageMetadata where
  plan_id : Option String
  from_phase : Nat
  staged_phase_id : Nat
  dependencies : List Nat
  estimated_steps : Nat
  has_success_criteria : Bool
  confidence : ℚ
  deriving Repr, DecidableEq

/-- The parsed /internal/resume request body; every field comes from
body.get with a None or empty default. -/
structure ResumeBody where
  step_id : Option String
  approve_plan_id : Option String
  approve_phase_id : Option Nat
  skip_phases : Option (List Nat)
  abort : Option Bool
  deriving Repr, DecidableEq

/-- The orchestrator globals the resume handler reads and writes. -/
structure OrchState where
  current_plan : Option Plan
  current_phase : Option Nat
  completed_phases : List Nat
  skipped_phases : List Nat
  approved_step_id : Option String
  approved_plan_id : Option String
  approved_phase_id : Option Nat
  staged_phase_cache : List (Option String × StageMetadata)
  resume_requested : Bool
  deriving Repr, DecidableEq

/-- Python truthiness of an optional number (None and 0 are falsy). -/
def pyTruthyNat (o : Option Nat) : Bool :=
  match o with
  | none => false
  | some n => n != 0

/-- The effect of the /internal/resume POST handler on the orchestrator
state, with the phase_blocked artifacts it may emit.  body is none when
the request body fails to parse: the except-pass path assigns nothing
and still raises the resume flag. -/
def handle_resume (policy : Option Policy) (st : OrchState)
    (body : Option ResumeBody) : OrchState × List PhaseEvent :=
  match body with
  | none => ({ st with resume_requested := true }, [])
  | some body =>
    let st := { st with
                approved_step_id := body.step_id,
                approved_plan_id := body.approve_plan_id,
                approved_phase_id := body.approve_phase_id }
    let skip_phases := body.skip_phases.getD []
    let abort := body.abort.getD false
    let st :=
      if pyTruthyNat st.approved_phase_id || ¬ skip_phases = [] || abort then
        { st with staged_phase_cache := [] }
      else st
    let phase_config := ((policy.map
      (fun p => p.phase_execution_config)).join).getD ⟨none, none⟩
    let step2 :=
      if pyTruthyNat st.approved_phase_id then
        match st.current_plan with
        | some plan =>
          if plan.phases.isSome then
            match (plan.phases.getD []).find?
                (fun p => p.phase_id == st.approved_phase_id.getD 0) with
            | some approved_phase =>
              if ¬ check_phase_dependencies approved_phase st.completed_phases then
                ({ st with approved_phase_id := none },
                 [PhaseEvent.phase_blocked approved_phase.phase_id])
              else (st, [])
            | none => ({ st with approved_phase_id := none }, [])
          else (st, [])
        | none => (st, [])
      else (st, [])
    let st := step2.1
    let st :=
      if ¬ skip_phases = [] then
        if (phase_config.allow_phase_skipping).getD true = false then st
        else { st with skipped_phases := st.skipped_phases ++ skip_phases }
      else st
    ({ st with resume_requested := true }, step2.2)

/-- A staged-phase cache entry for the failing input. -/
def resume_cex_meta : StageMetadata :=
  { plan_id := some "plan_x", from_phase := 1, staged_phase_id := 2,
    dependencies := [1], estimated_steps := 2, has_success_criteria := true,
    confidence := 1 }

/-- An orchestrator state with a non-empty staged-phase cache. -/
def resume_cex_state : OrchState :=
  { current_plan := none, current_phase := none, completed_phases := [1],
    skipped_phases := [], approved_step_id := none, approved_plan_id := none,
    approved_phase_id := none,
    staged_phase_cache := [(some "plan_x", resume_cex_meta)],
    resume_requested := false }

/-- C8 failing input: a resume request carrying only step_id is
processed to completion — the resume flag is raised and the step
approval is stored — yet the staged-phase cache is left untouched,
because the handler clears it only when the body carries a truthy
approve_phase_id, a non-empty skip_phases, or abort.  This contradicts
the stated behaviour (and the comment inside the handler) that the cache is
cleared on any resume action. -/
theorem resume_with_step_id_keeps_cache :
    let body : ResumeBody := { step_id := some "s1", approve_plan_id := none,
                               approve_phase_id := none, skip_phases := none,
                               abort := none }
    (handle_resume none resume_cex_state (some body)).1.resume_requested = true ∧
    (handle_resume none resume_cex_state (some body)).1.approved_step_id
      = some "s1" ∧
    resume_cex_state.staged_phase_cache ≠ [] ∧
    (handle_resume none resume_cex_state (some body)).1.staged_phase_cache =
      resume_cex_state.staged_phase_cache := by
  refine ⟨rfl, rfl, ?_, rfl⟩
  intro h
  cases h

/-- The clearing branch does fire for the resume actions the condition
names: the same state with an abort body ends with an empty cache. -/
theorem resume_with_abort_clears_cache :
    let body : ResumeBody := { step_id := none, approve_plan_id := none,
                               approve_phase_id := none, skip_phases := none,
                               abort := some true }
    (handle_resume none resume_cex_state (some body)).1.staged_phase_cache = [] :=
  rfl

end CtDev
